import Mathlib

/-!
Verification of the upsum log-summary pipeline (`src/upsum/__main__.py`).

Text is modelled as `List Char` (ASCII-faithful: Python's `str.lower` is
modelled by `Char.toLower`, which agrees on ASCII). The external
collaborators (generative model, SMTP transport, filesystem) are modelled
as oracle fields of a `World` record, and the orchestrator `main` is
modelled as a function producing the ordered trace of observable events.
-/

namespace Upsum

/-- Python's `needle in hay` prefix test: `startsW needle hay` is true iff
`needle` is a prefix of `hay`. -/
def startsW : List Char → List Char → Bool
  | [], _ => true
  | _ :: _, [] => false
  | n :: ns, h :: hs => n == h && startsW ns hs

/-- Python's substring operator `needle in hay`. -/
def pyIn (needle : List Char) : List Char → Bool
  | [] => startsW needle []
  | h :: hs => startsW needle (h :: hs) || pyIn needle hs

/-- Python's `str.lower()` (ASCII model). -/
def lowerL (s : List Char) : List Char := s.map Char.toLower

/-- First reboot trigger phrase (`__main__.py` line 30). -/
def rebootNeedle1 : List Char := "reboot is required".data

/-- Second reboot trigger phrase (`__main__.py` line 30). -/
def rebootNeedle2 : List Char := "rebooting".data

/-- `__main__.py` line 30: `"reboot is required" in content.lower() or
"rebooting" in content.lower()`. -/
def rebootRequired (content : List Char) : Bool :=
  pyIn rebootNeedle1 (lowerL content) || pyIn rebootNeedle2 (lowerL content)

/-- The dict returned by `parse_log_file` (`__main__.py` lines 32-35). -/
structure ParsedData where
  reboot_required : Bool
  log_content : List Char
deriving DecidableEq

/-- `parse_log_file` (`__main__.py` lines 25-36), applied to the text read
from the log file. -/
def parse_log_file (content : List Char) : ParsedData :=
  { reboot_required := rebootRequired content, log_content := content }

/-- A directory entry as seen by the Locator: a path and its mtime. -/
structure LogEntry where
  path : List Char
  mtime : Nat
deriving DecidableEq

/-- Outcome of `find_latest_log_file`: raising `FileNotFoundError`,
returning `None`, or returning the latest file. -/
inductive LocateResult where
  | fileNotFound
  | noLogsAvailable
  | found (e : LogEntry)
deriving DecidableEq

/-- Python's `max(e :: es, key=os.path.getmtime)`: the first entry of
maximal mtime (a later entry replaces the accumulator only when strictly
greater). -/
def maxByMtime (e : LogEntry) (es : List LogEntry) : LogEntry :=
  es.foldl (fun acc x => if acc.mtime < x.mtime then x else acc) e

/-- `find_latest_log_file` (`__main__.py` lines 13-23). `none` models a
`log_dir` that is missing or not a directory; `some entries` models the
`glob` listing of the directory. -/
def find_latest_log_file : Option (List LogEntry) → LocateResult
  | none => LocateResult.fileNotFound
  | some [] => LocateResult.noLogsAvailable
  | some (e :: es) => LocateResult.found (maxByMtime e es)

/-- Python's `\s` character class (ASCII part). -/
def isWs (c : Char) : Bool :=
  c == ' ' || c == '\t' || c == '\n' || c == '\r' || c == '\x0b' || c == '\x0c'

/-- Match a literal token at the head of the input, returning the rest. -/
def lit (p s : List Char) : Option (List Char) :=
  if startsW p s then some (s.drop p.length) else none

/-- Drop leading whitespace (`\s*`). -/
def wsDrop (s : List Char) : List Char := s.dropWhile isWs

/-- Require at least one whitespace character, then drop the run (`\s+`). -/
def ws1 (s : List Char) : Option (List Char) :=
  match s with
  | [] => none
  | c :: t => if isWs c then some (t.dropWhile isWs) else none

/-- Character class `[\d.]` of the DietPi version capture
(`__main__.py` line 48). -/
def dpVerChar (c : Char) : Bool := c.isDigit || c == '.'

/-- Attempt the regex `DietPi-Update\s+:\s+v([\d.]+)\s+is\s+now\s+available`
(`__main__.py` line 48) at the current position, returning the captured
version. -/
def dietpiMatchAt (s : List Char) : Option (List Char) :=
  match lit "DietPi-Update".data s with
  | none => none
  | some s1 =>
    match ws1 s1 with
    | none => none
    | some s2 =>
      match lit [':'] s2 with
      | none => none
      | some s3 =>
        match ws1 s3 with
        | none => none
        | some s4 =>
          match lit ['v'] s4 with
          | none => none
          | some s5 =>
            let ver := s5.takeWhile dpVerChar
            if ver.isEmpty then none
            else
              match ws1 (s5.dropWhile dpVerChar) with
              | none => none
              | some s6 =>
                match lit "is".data s6 with
                | none => none
                | some s7 =>
                  match ws1 s7 with
                  | none => none
                  | some s8 =>
                    match lit "now".data s8 with
                    | none => none
                    | some s9 =>
                      match ws1 s9 with
                      | none => none
                      | some s10 =>
                        match lit "available".data s10 with
                        | none => none
                        | some _ => some ver

/-- `re.search` of the DietPi pattern: first match anywhere in the text. -/
def dietpiSearch : List Char → Option (List Char)
  | [] => none
  | c :: t =>
    match dietpiMatchAt (c :: t) with
    | some v => some v
    | none => dietpiSearch t

/-- The localized reboot-status sentence (`__main__.py` line 43). -/
def rebootText (b : Bool) : List Char :=
  if b then "시스템 재부팅이 필요합니다.".data
  else "시스템 재부팅이 필요하지 않습니다.".data

/-- `dietpi_release_notes` (`__main__.py` lines 49-53). -/
def dietpiNotes (log : List Char) : List Char :=
  match dietpiSearch log with
  | none => []
  | some v =>
    "\n\n**DietPi v".data ++ v ++
      " 업데이트 정보:**\n- 이 버전에 대한 릴리스 정보는 웹사이트를 참조하세요.".data

/-- Prompt template up to the interpolated `{log_content}`
(`__main__.py` lines 55-59). -/
def promptSegA : List Char :=
  ("\n    당신은 시스템 관리자를 위한 보고서 작성 도우미입니다. 다음은 시스템 업데이트 전체 로그입니다. 이 정보를 바탕으로 상세하고 명확한 한국어 보고서를 작성해주세요.\n\n    **로그 내용:**\n    ```\n    ").data

/-- Prompt template between `{log_content}` and `{reboot_text}`
(`__main__.py` lines 61-65). -/
def promptSegB : List Char :=
  ("\n    ```\n\n    **작성 지침:**\n\n    1.  **재부팅 필요 여부:** 보고서 최상단에 \"").data

/-- Prompt template between `{reboot_text}` and `{dietpi_release_notes}`
(`__main__.py` lines 65-72). -/
def promptSegC : List Char :=
  ("\" 문구를 명확히 포함해주세요.\n    2.  **업데이트 상세 내역:**\n        - 로그에서 업데이트된 모든 패키지 또는 스크립트 목록을 추출해주세요.\n        - 각 항목에 대해 이전 버전과 새로운 버전 번호를 명확하게 표시해주세요 (예: `openssl 1.1.1w-0+deb11u1 -> 1.1.1w-0+deb11u2`).\n        - 단순 패키지 설치, 삭제, 시스템 메시지 등도 의미있게 요약해주세요.\n    3.  **DietPi OS 업데이트:**\n        - 만약 \x27DietPi-Update\x27 관련 로그가 있다면, 어떤 버전으로 업데이트되었는지 명시해주세요.\n        - ").data

/-- Prompt template after `{dietpi_release_notes}`
(`__main__.py` lines 73-98). -/
def promptSegD : List Char :=
  ("\n    4.  **형식:**\n        - 모든 내용은 한국어로 작성해주세요.\n        - 각 섹션을 명확하게 구분하여 가독성을 높여주세요.\n        - 최종 보고서는 이메일로 보내기 좋은 형식이어야 합니다.\n\n    **최종 보고서 예시:**\n\n    **제목: 일일 시스템 업데이트 보고서**\n\n    **재부팅 필요 여부:** 시스템 재부팅이 필요합니다.\n\n    **상세 업데이트 내역:**\n\n    *   **OS 업데이트:**\n        *   DietPi가 v8.25.1로 업데이트되었습니다. (자세한 변경 사항은 공식 홈페이지를 참고하세요.)\n\n    *   **패키지 업데이트:**\n        *   openssl: 1.1.1w-0+deb11u1 -> 1.1.1w-0+deb11u2\n        *   libssl1.1: 1.1.1w-0+deb11u1 -> 1.1.1w-0+deb11u2\n        *   unattended-upgrades: 2.8 -> 2.9\n    \n    *   **신규 설치:**\n        *   new-package: 1.0.0\n\n    위 지침과 예시를 참고하여, 제공된 로그 내용을 바탕으로 최종 보고서를 생성해주세요.\n    ").data

/-- The f-string prompt built by `generate_summary_with_gemini`
(`__main__.py` lines 55-98). -/
def geminiPrompt (parsed : ParsedData) : List Char :=
  promptSegA ++ parsed.log_content ++ promptSegB ++
    rebootText parsed.reboot_required ++ promptSegC ++
    dietpiNotes parsed.log_content ++ promptSegD

/-- `generate_summary_with_gemini` (`__main__.py` lines 38-101): builds the
prompt and delegates to the remote model `gen` (oracle for
`model.generate_content(prompt).text`; `Except.error` models a raised
exception). -/
def generate_summary_with_gemini (parsed : ParsedData)
    (gen : List Char → Except (List Char) (List Char)) :
    Except (List Char) (List Char) :=
  gen (geminiPrompt parsed)

/-- The `smtp_config` dict handed to `send_email`
(`__main__.py` lines 153-160). -/
structure SmtpConfig where
  host : List Char
  port : Nat
  user : List Char
  password : List Char
  fromAddr : List Char
  rcptTo : List Char
deriving DecidableEq

/-- Observable calls on the `smtplib.SMTP` session. -/
inductive SmtpAct where
  | connect (host : List Char) (port : Nat)
  | starttls
  | login (user password : List Char)
  | sendmail (sender rcpt subject body : List Char)
deriving DecidableEq

/-- Placeholder sender identity (`__main__.py` line 116). -/
def defaultFrom : List Char := "upsum@example.com".data

/-- `send_email` (`__main__.py` lines 106-132), modelled as the sequence of
transport actions it performs: `starttls` only on port 587 (line 127),
`login` only when both user and password are truthy (line 130), then
`sendmail`. MIME assembly and markdown rendering are opaque formatting of
the payload. -/
def send_email (subject body : List Char) (cfg : SmtpConfig) : List SmtpAct :=
  [SmtpAct.connect cfg.host cfg.port]
    ++ (if cfg.port = 587 then [SmtpAct.starttls] else [])
    ++ (if !cfg.user.isEmpty && !cfg.password.isEmpty then
          [SmtpAct.login cfg.user cfg.password]
        else [])
    ++ [SmtpAct.sendmail
          (if cfg.fromAddr.isEmpty then defaultFrom else cfg.fromAddr)
          cfg.rcptTo subject body]

/-- The environment-derived configuration read in `main`
(`__main__.py` lines 152-160). `none` models an unset variable. -/
structure Config where
  gemini_api_key : Option (List Char)
  smtp_host : Option (List Char)
  smtp_port : Nat
  smtp_user : List Char
  smtp_password : List Char
  mail_from : List Char
  mail_to : Option (List Char)

/-- Python truthiness of an optional string: `None` and `""` are falsy. -/
def truthyOpt : Option (List Char) → Bool
  | none => false
  | some s => !s.isEmpty

/-- Parsed command-line arguments (`__main__.py` lines 144-148). -/
structure Args where
  log_dir : List Char
  dry_run : Bool
  log_file : Option (List Char)

/-- The external oracle state of one run: directory listing, existence of the
explicitly given log file, content of the selected log, the generative
model, and the SMTP transport outcome. -/
structure World where
  dirEntries : Option (List LogEntry)
  fileExists : Bool
  content : List Char
  gen : List Char → Except (List Char) (List Char)
  sendResult : Except (List Char) Unit

/-- Subject constant (`__main__.py` line 194). -/
def subjectConst : List Char := "일일 시스템 업데이트 요약".data

/-- Observable events of one `main` run, in order. -/
inductive Ev where
  | configError
  | locatorCalled
  | fileNotFoundErr
  | noLogsMsg
  | parserCalled
  | summarizerCalled
  | printSummary (s : List Char)
  | dryRunMsg
  | mailSend (subject body : List Char)
  | sentOk
  | errorLine
deriving DecidableEq

/-- Stages 2-4 of `main` (`__main__.py` lines 188-206): parse the selected
log, generate the summary, then either dry-run or send. A raised exception
is caught by the `except` at line 208 and surfaces as one `errorLine`. -/
def pipelineAfterLocate (args : Args) (w : World) : List Ev :=
  Ev.parserCalled ::
    Ev.summarizerCalled ::
      (match generate_summary_with_gemini (parse_log_file w.content) w.gen with
       | Except.error _ => [Ev.errorLine]
       | Except.ok summary =>
         Ev.printSummary summary ::
           (if args.dry_run then [Ev.dryRunMsg]
            else
              Ev.mailSend subjectConst summary ::
                (match w.sendResult with
                 | Except.ok _ => [Ev.sentOk]
                 | Except.error _ => [Ev.errorLine])))

/-- `main` (`__main__.py` lines 140-209) as a trace of observable events:
configuration validation (lines 162-171), log-file selection
(lines 174-184), then the pipeline. -/
def mainRun (cfg : Config) (args : Args) (w : World) : List Ev :=
  if !truthyOpt cfg.gemini_api_key then [Ev.configError]
  else if !truthyOpt cfg.smtp_host || !truthyOpt cfg.mail_to then
    [Ev.configError]
  else
    match args.log_file with
    | some _ =>
      if !w.fileExists then [Ev.fileNotFoundErr]
      else pipelineAfterLocate args w
    | none =>
      Ev.locatorCalled ::
        (match find_latest_log_file w.dirEntries with
         | LocateResult.fileNotFound => [Ev.errorLine]
         | LocateResult.noLogsAvailable => [Ev.noLogsMsg]
         | LocateResult.found _ => pipelineAfterLocate args w)

/-- Modelled from the spec: the package-name character class `[\w.-]` of the
structured-extraction Parser variant (spec section 4.2), whose source file
is not among the files under `src/`. -/
def nameChar (c : Char) : Bool :=
  c.isAlphanum || c == '_' || c == '.' || c == '-'

/-- Modelled from the spec: the version character class `[\d.:~+-]`
(spec section 4.2). -/
def verChar (c : Char) : Bool :=
  c.isDigit || c == '.' || c == ':' || c == '~' || c == '+' || c == '-'

/-- Modelled from the spec: one entry of `package_transitions`
(spec section 3); `fromVersion` is absent for fresh installs. -/
structure PackageTransition where
  name : List Char
  fromVersion : Option (List Char)
  toVersion : List Char
deriving DecidableEq

/-- Modelled from the spec: `ParsedUpdateFacts` (spec section 3). -/
structure ParsedUpdateFacts where
  reboot_required : Bool
  package_transitions : List PackageTransition
deriving DecidableEq

/-- The literal keyword `Upgrade`. -/
def upgradeKw : List Char := ['U', 'p', 'g', 'r', 'a', 'd', 'e']

/-- The literal keyword `Install`. -/
def installKw : List Char := ['I', 'n', 's', 't', 'a', 'l', 'l']

/-- Modelled from the spec: match `("Upgrade"|"Install")` at the head. -/
def kwTail (s : List Char) : Option (List Char) :=
  match lit upgradeKw s with
  | some r => some r
  | none => lit installKw s

/-- Modelled from the spec: the parenthesized version part
`[old-version "->"] new-version ")"` of the transition pattern
(spec section 4.2); the optional `old ->` is absent for installs. -/
def matchVerPart (name s : List Char) : Option PackageTransition :=
  let v1 := s.takeWhile verChar
  if v1.isEmpty then none
  else
    let s1 := wsDrop (s.dropWhile verChar)
    match lit ['-', '>'] s1 with
    | some s2 =>
      let s3 := wsDrop s2
      let v2 := s3.takeWhile verChar
      if v2.isEmpty then none
      else
        match lit [')'] (s3.dropWhile verChar) with
        | some _ => some { name := name, fromVersion := some v1, toVersion := v2 }
        | none => none
    | none =>
      match lit [')'] s1 with
      | some _ => some { name := name, fromVersion := none, toVersion := v1 }
      | none => none

/-- Modelled from the spec: attempt the whole transition pattern
`("Upgrade"|"Install") ":" <name> "(" [<old> "->"] <new> ")"`
(spec section 4.2) at the current position. -/
def matchTransAt (s : List Char) : Option PackageTransition :=
  match kwTail s with
  | none => none
  | some s1 =>
    match lit [':'] s1 with
    | none => none
    | some s2 =>
      let s3 := wsDrop s2
      let name := s3.takeWhile nameChar
      if name.isEmpty then none
      else
        match lit ['('] (wsDrop (s3.dropWhile nameChar)) with
        | none => none
        | some s5 => matchVerPart name s5

/-- Modelled from the spec: first match of the transition pattern within one
line; a line where no position matches contributes nothing
(spec section 4.2 edge cases). -/
def scanLine : List Char → Option PackageTransition
  | [] => none
  | c :: t =>
    match matchTransAt (c :: t) with
    | some e => some e
    | none => scanLine t

/-- Split on `'\n'` (line structure of the raw log). -/
def splitNl : List Char → List (List Char)
  | [] => [[]]
  | c :: t =>
    if c = '\n' then [] :: splitNl t
    else
      match splitNl t with
      | [] => [[c]]
      | l :: ls => (c :: l) :: ls

/-- Join lines with `'\n'` separators. -/
def joinNl : List (List Char) → List Char
  | [] => []
  | [l] => l
  | l :: l' :: ls => l ++ '\n' :: joinNl (l' :: ls)

/-- Modelled from the spec: scan for lines matching the transition pattern,
appending each match in the order it appears (spec section 4.2). -/
def parseTransitions (content : List Char) : List PackageTransition :=
  (splitNl content).filterMap scanLine

/-- Modelled from the spec: the structured-extraction Parser variant
(spec sections 3 and 4.2), producing `ParsedUpdateFacts`. -/
def parseSpec (content : List Char) : ParsedUpdateFacts :=
  { reboot_required := rebootRequired content
    package_transitions := parseTransitions content }

/-- A well-formed `Upgrade` line with the given tokens. -/
def upgradeLine (n v1 v2 : List Char) : List Char :=
  upgradeKw ++ [':', ' '] ++ n ++ [' ', '('] ++ v1 ++ [' '] ++ ['-', '>'] ++
    [' '] ++ v2 ++ [')']

/-- A well-formed arrow-free `Install` line with the given tokens. -/
def installLine (n v : List Char) : List Char :=
  installKw ++ [':', ' '] ++ n ++ [' ', '('] ++ v ++ [')']

/-- A fully populated configuration (all required fields truthy). -/
def cfgFull : Config :=
  { gemini_api_key := some ['k'], smtp_host := some ['h'], smtp_port := 587,
    smtp_user := [], smtp_password := [], mail_from := [],
    mail_to := some ['t'] }

/-- A configuration with `SMTP_HOST` unset. -/
def cfgNoHost : Config :=
  { gemini_api_key := some ['k'], smtp_host := none, smtp_port := 587,
    smtp_user := [], smtp_password := [], mail_from := [],
    mail_to := some ['t'] }

/-- Arguments naming an explicit log file, with dry-run enabled. -/
def argsDry : Args := { log_dir := ['d'], dry_run := true, log_file := some ['f'] }

/-- Arguments naming an explicit log file, with dry-run disabled. -/
def argsSend : Args := { log_dir := ['d'], dry_run := false, log_file := some ['f'] }

/-- A run whose summarization capability returns empty text successfully. -/
def wOkEmpty : World :=
  { dirEntries := none, fileExists := true, content := ['l'],
    gen := fun _ => Except.ok [], sendResult := Except.ok () }

/-- A run whose summarization capability returns the text "s". -/
def wOkS : World :=
  { dirEntries := none, fileExists := true, content := ['l'],
    gen := fun _ => Except.ok ['s'], sendResult := Except.ok () }

/-- A run whose summarization capability raises an error. -/
def wErr : World :=
  { dirEntries := none, fileExists := true, content := ['l'],
    gen := fun _ => Except.error ['e'], sendResult := Except.ok () }

/-- An SMTP configuration on the submission port with credentials. -/
def smtpCfg587 : SmtpConfig :=
  { host := ['h'], port := 587, user := ['u'], password := ['p'],
    fromAddr := [], rcptTo := ['t'] }

/-- `startsW` decides the prefix relation. -/
theorem startsW_iff (n h : List Char) :
    startsW n h = true ↔ ∃ r, h = n ++ r := by
  induction n generalizing h with
  | nil => simp [startsW]
  | cons c cs ih =>
    cases h with
    | nil =>
      simp [startsW]
    | cons d ds =>
      simp only [startsW, Bool.and_eq_true, beq_iff_eq, ih, List.cons_append,
        List.cons.injEq]
      constructor
      · rintro ⟨hcd, r, hr⟩
        exact ⟨r, hcd.symm, hr⟩
      · rintro ⟨r, hdc, hr⟩
        exact ⟨hdc.symm, r, hr⟩

/-- `pyIn` decides substring containment, like Python's `in`. -/
theorem pyIn_iff (n h : List Char) :
    pyIn n h = true ↔ ∃ a b, h = a ++ n ++ b := by
  induction h with
  | nil =>
    simp only [pyIn, startsW_iff]
    constructor
    · rintro ⟨r, hr⟩
      exact ⟨[], r, by simpa using hr⟩
    · rintro ⟨a, b, hab⟩
      rcases List.append_eq_nil.mp (List.append_eq_nil.mp hab.symm).1 with ⟨_, h2⟩
      exact ⟨b, by simp_all⟩
  | cons c t ih =>
    simp only [pyIn, Bool.or_eq_true, startsW_iff, ih]
    constructor
    · rintro (⟨r, hr⟩ | ⟨a, b, hab⟩)
      · exact ⟨[], r, by simpa using hr⟩
      · exact ⟨c :: a, b, by simp [hab]⟩
    · rintro ⟨a, b, hab⟩
      cases a with
      | nil =>
        exact Or.inl ⟨b, by simpa using hab⟩
      | cons a0 as =>
        rcases List.cons.injEq .. ▸ hab with ⟨_, ht⟩
        exact Or.inr ⟨as, b, by simp_all⟩

/-- Lowercasing distributes over concatenation. -/
theorem lowerL_append (a b : List Char) :
    lowerL (a ++ b) = lowerL a ++ lowerL b := by
  simp [lowerL]

/-- C2 — `reboot_required` is true iff the lowercased text contains
"reboot is required" or "rebooting" as a substring; in particular, any
occurrence of either phrase in any letter case makes it true. -/
theorem reboot_flag_iff_trigger_phrase (content : List Char) :
    ((parse_log_file content).reboot_required = true ↔
      (∃ a b, lowerL content = a ++ rebootNeedle1 ++ b) ∨
        (∃ a b, lowerL content = a ++ rebootNeedle2 ++ b)) ∧
    (∀ a s b, content = a ++ s ++ b →
      (lowerL s = rebootNeedle1 ∨ lowerL s = rebootNeedle2) →
      (parse_log_file content).reboot_required = true) := by
  constructor
  · simp [parse_log_file, rebootRequired, pyIn_iff]
  · rintro a s b rfl hs
    have hsplit : lowerL (a ++ s ++ b) = lowerL a ++ lowerL s ++ lowerL b := by
      simp [lowerL]
    have : (∃ a' b', lowerL (a ++ s ++ b) = a' ++ rebootNeedle1 ++ b') ∨
        (∃ a' b', lowerL (a ++ s ++ b) = a' ++ rebootNeedle2 ++ b') := by
      rcases hs with hs | hs
      · exact Or.inl ⟨lowerL a, lowerL b, by rw [hsplit, hs]⟩
      · exact Or.inr ⟨lowerL a, lowerL b, by rw [hsplit, hs]⟩
    simpa [parse_log_file, rebootRequired, pyIn_iff] using this

/-- C2 witness: a text containing "REBOOTING" in capitals sets the flag. -/
theorem reboot_flag_iff_trigger_phrase_witness :
    (parse_log_file "Now REBOOTING".data).reboot_required = true :=
  (reboot_flag_iff_trigger_phrase "Now REBOOTING".data).2
    "Now ".data "REBOOTING".data [] (by decide) (Or.inr (by decide))

/-- C3 — the Parser is total: every input text yields a facts record
carrying that text, and the empty text yields the empty-but-valid record
with the flag down. -/
theorem parser_total (content : List Char) :
    (∃ d : ParsedData, parse_log_file content = d ∧ d.log_content = content) ∧
      parse_log_file [] = { reboot_required := false, log_content := [] } :=
  ⟨⟨parse_log_file content, rfl, rfl⟩, by decide⟩

/-- C3 witness: the empty text parses to the empty record. -/
theorem parser_total_witness :
    parse_log_file [] = { reboot_required := false, log_content := [] } :=
  (parser_total []).2

/-- Python's `max` over a nonempty list: the result is a member and its
mtime dominates the seed and every listed entry. -/
theorem maxByMtime_spec (e : LogEntry) (es : List LogEntry) :
    maxByMtime e es ∈ e :: es ∧ e.mtime ≤ (maxByMtime e es).mtime ∧
      ∀ x ∈ es, x.mtime ≤ (maxByMtime e es).mtime := by
  induction es generalizing e with
  | nil => simp [maxByMtime]
  | cons x xs ih =>
    by_cases hc : e.mtime < x.mtime
    · have hstep : maxByMtime e (x :: xs) = maxByMtime x xs := by
        simp [maxByMtime, List.foldl_cons, hc]
      rcases ih x with ⟨hmem, hle, hall⟩
      rw [hstep]
      refine ⟨List.mem_cons_of_mem e hmem, le_trans (le_of_lt hc) hle, ?_⟩
      intro y hy
      rcases List.mem_cons.mp hy with rfl | hy
      · exact hle
      · exact hall y hy
    · have hstep : maxByMtime e (x :: xs) = maxByMtime e xs := by
        simp [maxByMtime, List.foldl_cons, hc]
      rcases ih e with ⟨hmem, hle, hall⟩
      rw [hstep]
      refine ⟨?_, hle, ?_⟩
      · rcases List.mem_cons.mp hmem with hh | hh
        · exact List.mem_cons.mpr (Or.inl hh)
        · exact List.mem_cons_of_mem e (List.mem_cons_of_mem x hh)
      · intro y hy
        rcases List.mem_cons.mp hy with rfl | hy
        · exact le_trans (le_of_not_lt hc) hle
        · exact hall y hy

/-- Distinct mtimes in a pairwise-distinct list. -/
theorem pairwise_mtime_ne {l : List LogEntry}
    (hp : l.Pairwise fun a b => a.mtime ≠ b.mtime) {x y : LogEntry}
    (hx : x ∈ l) (hy : y ∈ l) (hxy : x ≠ y) : x.mtime ≠ y.mtime := by
  induction l with
  | nil => cases hx
  | cons a as ih =>
    rcases List.pairwise_cons.mp hp with ⟨ha, has⟩
    rcases List.mem_cons.mp hx with hxa | hxs
    · subst hxa
      rcases List.mem_cons.mp hy with hya | hys
      · subst hya
        exact absurd rfl hxy
      · exact ha y hys
    · rcases List.mem_cons.mp hy with hya | hys
      · subst hya
        exact (ha x hxs).symm
      · exact ih has hxs hys

/-- C4 — the Locator: a missing or non-directory `log_dir` fails with
`FileNotFound`; an empty directory yields `NoLogsAvailable` (not an error);
a nonempty directory with pairwise-distinct mtimes yields the entry of
strictly maximal mtime. -/
theorem locator_spec (e : LogEntry) (es : List LogEntry)
    (hdist : (e :: es).Pairwise fun a b => a.mtime ≠ b.mtime) :
    find_latest_log_file none = LocateResult.fileNotFound ∧
    find_latest_log_file (some []) = LocateResult.noLogsAvailable ∧
    ∃ m, find_latest_log_file (some (e :: es)) = LocateResult.found m ∧
      m ∈ e :: es ∧ (∀ x ∈ e :: es, x.mtime ≤ m.mtime) ∧
      ∀ x ∈ e :: es, x ≠ m → x.mtime < m.mtime := by
  refine ⟨rfl, rfl, maxByMtime e es, rfl, ?_⟩
  rcases maxByMtime_spec e es with ⟨hmem, hle, hall⟩
  have hub : ∀ x ∈ e :: es, x.mtime ≤ (maxByMtime e es).mtime := by
    intro x hx
    rcases List.mem_cons.mp hx with rfl | hx
    · exact hle
    · exact hall x hx
  refine ⟨hmem, hub, ?_⟩
  intro x hx hne
  exact lt_of_le_of_ne (hub x hx) (pairwise_mtime_ne hdist hx hmem hne)

/-- C4 witness: instantiated at two files with distinct mtimes. -/
theorem locator_spec_witness :
    ([{ path := ['a'], mtime := 1 }, { path := ['b'], mtime := 3 }] :
        List LogEntry).Pairwise (fun a b => a.mtime ≠ b.mtime) ∧
      find_latest_log_file none = LocateResult.fileNotFound ∧
      find_latest_log_file (some []) = LocateResult.noLogsAvailable :=
  ⟨by decide,
    (locator_spec { path := ['a'], mtime := 1 } [{ path := ['b'], mtime := 3 }]
        (by decide)).1,
    (locator_spec { path := ['a'], mtime := 1 } [{ path := ['b'], mtime := 3 }]
        (by decide)).2.1⟩

/-- Every run's trace takes one of six shapes. -/
theorem mainRun_cases (cfg : Config) (args : Args) (w : World) :
    mainRun cfg args w = [Ev.configError] ∨
    mainRun cfg args w = [Ev.fileNotFoundErr] ∨
    mainRun cfg args w = [Ev.locatorCalled, Ev.errorLine] ∨
    mainRun cfg args w = [Ev.locatorCalled, Ev.noLogsMsg] ∨
    mainRun cfg args w = Ev.locatorCalled :: pipelineAfterLocate args w ∨
    mainRun cfg args w = pipelineAfterLocate args w := by
  unfold mainRun
  split
  · exact Or.inl rfl
  · split
    · exact Or.inl rfl
    · split
      · split
        · exact Or.inr (Or.inl rfl)
        · exact Or.inr (Or.inr (Or.inr (Or.inr (Or.inr rfl))))
      · split
        · exact Or.inr (Or.inr (Or.inl rfl))
        · exact Or.inr (Or.inr (Or.inr (Or.inl rfl)))
        · exact Or.inr (Or.inr (Or.inr (Or.inr (Or.inl rfl))))

/-- Shape of the pipeline trace when summarization succeeds in dry-run. -/
theorem pipeline_ok_dry (args : Args) (w : World) (s : List Char)
    (hg : generate_summary_with_gemini (parse_log_file w.content) w.gen =
      Except.ok s)
    (hd : args.dry_run = true) :
    pipelineAfterLocate args w =
      [Ev.parserCalled, Ev.summarizerCalled, Ev.printSummary s, Ev.dryRunMsg] := by
  unfold pipelineAfterLocate
  rw [hg, hd]
  simp

/-- Shape of the pipeline trace when summarization raises. -/
theorem pipeline_err (args : Args) (w : World) (e : List Char)
    (hg : generate_summary_with_gemini (parse_log_file w.content) w.gen =
      Except.error e) :
    pipelineAfterLocate args w =
      [Ev.parserCalled, Ev.summarizerCalled, Ev.errorLine] := by
  unfold pipelineAfterLocate
  rw [hg]

/-- Any mail event in the pipeline trace carries the fixed subject. -/
theorem pipeline_mail_subject (args : Args) (w : World) (subj body : List Char)
    (h : Ev.mailSend subj body ∈ pipelineAfterLocate args w) :
    subj = subjectConst := by
  unfold pipelineAfterLocate at h
  rcases hg : generate_summary_with_gemini (parse_log_file w.content) w.gen with
    e | s
  · rw [hg] at h
    simp at h
  · rw [hg] at h
    by_cases hd : args.dry_run
    · rw [hd] at h
      simp at h
    · simp only [Bool.not_eq_true] at hd
      rw [hd] at h
      rcases hs : w.sendResult with e' | u <;> rw [hs] at h <;> simp at h <;>
        exact h.1

/-- C5 — if any required configuration field (`api_key`, `smtp_host`,
`mail_to`) is absent or empty, the run emits exactly one
configuration-error message and no pipeline stage — Locator, Parser,
summarizer or mail transport — is ever invoked. -/
theorem config_missing_aborts (cfg : Config) (args : Args) (w : World)
    (h : truthyOpt cfg.gemini_api_key = false ∨
      truthyOpt cfg.smtp_host = false ∨ truthyOpt cfg.mail_to = false) :
    mainRun cfg args w = [Ev.configError] ∧
    Ev.locatorCalled ∉ mainRun cfg args w ∧
    Ev.parserCalled ∉ mainRun cfg args w ∧
    Ev.summarizerCalled ∉ mainRun cfg args w ∧
    ∀ subj body, Ev.mailSend subj body ∉ mainRun cfg args w := by
  have hmain : mainRun cfg args w = [Ev.configError] := by
    unfold mainRun
    rcases h with h | h | h
    · simp [h]
    · rcases ha : truthyOpt cfg.gemini_api_key <;> simp [h, ha]
    · rcases ha : truthyOpt cfg.gemini_api_key <;>
        rcases hh : truthyOpt cfg.smtp_host <;> simp [h, ha, hh]
  rw [hmain]
  refine ⟨rfl, by simp, by simp, by simp, ?_⟩
  intro subj body
  simp

/-- C5 witness: a configuration missing `SMTP_HOST`. -/
theorem config_missing_aborts_witness :
    truthyOpt cfgNoHost.smtp_host = false ∧
      mainRun cfgNoHost argsDry wOkS = [Ev.configError] :=
  ⟨rfl,
    (config_missing_aborts cfgNoHost argsDry wOkS (Or.inr (Or.inl rfl))).1⟩

/-- C6 — in dry-run mode, when summarization succeeds, the mail transport is
never invoked and the report is surfaced to the caller for display. -/
theorem dry_run_no_mail (cfg : Config) (args : Args) (w : World) (s : List Char)
    (hd : args.dry_run = true)
    (hg : generate_summary_with_gemini (parse_log_file w.content) w.gen =
      Except.ok s) :
    (∀ subj body, Ev.mailSend subj body ∉ mainRun cfg args w) ∧
    (Ev.summarizerCalled ∈ mainRun cfg args w →
      Ev.printSummary s ∈ mainRun cfg args w ∧
        Ev.dryRunMsg ∈ mainRun cfg args w) := by
  have hp := pipeline_ok_dry args w s hg hd
  rcases mainRun_cases cfg args w with hm | hm | hm | hm | hm | hm <;>
    rw [hm] <;> simp [hp]

/-- C6 witness: a dry run with a successful summary sends no mail. -/
theorem dry_run_no_mail_witness :
    Ev.mailSend subjectConst ['s'] ∉ mainRun cfgFull argsDry wOkS :=
  (dry_run_no_mail cfgFull argsDry wOkS ['s'] rfl rfl).1 subjectConst ['s']

/-- C7 counterexample: a run in which the summarization capability returns
empty text successfully; the orchestrator does not fail — it invokes the
mail transport with the empty report and finishes cleanly, contradicting
the claim that empty text yields `SummarizationFailed` with no mail ever
sent. -/
theorem summarization_empty_not_failure :
    generate_summary_with_gemini (parse_log_file wOkEmpty.content)
        wOkEmpty.gen = Except.ok [] ∧
    Ev.mailSend subjectConst [] ∈ mainRun cfgFull argsSend wOkEmpty ∧
    Ev.errorLine ∉ mainRun cfgFull argsSend wOkEmpty ∧
    Ev.sentOk ∈ mainRun cfgFull argsSend wOkEmpty := by
  refine ⟨rfl, ?_, ?_, ?_⟩ <;> decide

/-- C7 (amended) — when the summarization capability signals an error the
failure is terminal: the mail transport is never invoked, and whenever the
summarizer actually ran, the run ends with the single error message.
(Empty text returned successfully is not treated as a failure by the
code.) -/
theorem summarization_error_terminal (cfg : Config) (args : Args) (w : World)
    (e : List Char)
    (hg : generate_summary_with_gemini (parse_log_file w.content) w.gen =
      Except.error e) :
    (∀ subj body, Ev.mailSend subj body ∉ mainRun cfg args w) ∧
    (Ev.summarizerCalled ∈ mainRun cfg args w →
      Ev.errorLine ∈ mainRun cfg args w ∧
        ∃ pre, mainRun cfg args w = pre ++ [Ev.errorLine]) := by
  have hp := pipeline_err args w e hg
  constructor
  · intro subj body
    rcases mainRun_cases cfg args w with hm | hm | hm | hm | hm | hm <;>
      rw [hm] <;> simp [hp]
  · intro hs
    rcases mainRun_cases cfg args w with hm | hm | hm | hm | hm | hm
    · rw [hm] at hs
      simp at hs
    · rw [hm] at hs
      simp at hs
    · rw [hm] at hs
      simp at hs
    · rw [hm] at hs
      simp at hs
    · rw [hm, hp]
      exact ⟨by simp,
        ⟨[Ev.locatorCalled, Ev.parserCalled, Ev.summarizerCalled], rfl⟩⟩
    · rw [hm, hp]
      exact ⟨by simp, ⟨[Ev.parserCalled, Ev.summarizerCalled], rfl⟩⟩

/-- C7 witness: a summarization error leaves the mail transport untouched. -/
theorem summarization_error_terminal_witness :
    Ev.mailSend subjectConst ['e'] ∉ mainRun cfgFull argsSend wErr :=
  (summarization_error_terminal cfgFull argsSend wErr ['e'] rfl).1
    subjectConst ['e']

/-- C8 — every mail ever sent by a run carries the fixed constant subject
line, whatever the configuration, arguments, oracles, and report body. -/
theorem subject_line_constant (cfg : Config) (args : Args) (w : World)
    (subj body : List Char) (h : Ev.mailSend subj body ∈ mainRun cfg args w) :
    subj = subjectConst := by
  rcases mainRun_cases cfg args w with hm | hm | hm | hm | hm | hm <;>
    rw [hm] at h
  · simp at h
  · simp at h
  · simp at h
  · simp at h
  · rcases List.mem_cons.mp h with h | h
    · cases h
    · exact pipeline_mail_subject args w subj body h
  · exact pipeline_mail_subject args w subj body h

/-- C8 witness: a concrete run that sends mail, with the constant subject. -/
theorem subject_line_constant_witness :
    Ev.mailSend subjectConst ['s'] ∈ mainRun cfgFull argsSend wOkS ∧
      subjectConst = subjectConst :=
  ⟨by decide,
    subject_line_constant cfgFull argsSend wOkS subjectConst ['s'] (by decide)⟩

/-- C9 — the Delivery Adapter negotiates STARTTLS exactly on port 587, and
logs in exactly when both a username and a password are supplied. -/
theorem smtp_tls_and_auth (cfg : SmtpConfig) (subject body : List Char) :
    (SmtpAct.starttls ∈ send_email subject body cfg ↔ cfg.port = 587) ∧
    ((∃ u p, SmtpAct.login u p ∈ send_email subject body cfg) ↔
      cfg.user ≠ [] ∧ cfg.password ≠ []) := by
  by_cases hp : cfg.port = 587 <;>
    by_cases hu : cfg.user.isEmpty <;>
    by_cases hpw : cfg.password.isEmpty <;>
    simp_all [send_email, List.isEmpty_iff]

/-- C9 witness: port 587 with credentials negotiates STARTTLS. -/
theorem smtp_tls_and_auth_witness :
    SmtpAct.starttls ∈ send_email [] [] smtpCfg587 :=
  (smtp_tls_and_auth smtpCfg587 [] []).1.mpr rfl

/-- C10 — the parse result carries the complete raw log text verbatim in its
`log_content` field, and the composer embeds that entire text verbatim in
the prompt handed to the summarization capability. -/
theorem raw_text_carried (content : List Char) :
    (parse_log_file content).log_content = content ∧
    ∃ pre post,
      geminiPrompt (parse_log_file content) = pre ++ content ++ post := by
  refine ⟨rfl, promptSegA,
    promptSegB ++ rebootText (rebootRequired content) ++ promptSegC ++
      dietpiNotes content ++ promptSegD, ?_⟩
  simp [geminiPrompt, parse_log_file, List.append_assoc]

/-- C10 witness: a one-character log is carried verbatim. -/
theorem raw_text_carried_witness :
    (parse_log_file ['x']).log_content = ['x'] :=
  (raw_text_carried ['x']).1

/-- Dropping the length of an appended prefix recovers the tail. -/
theorem drop_len_append (p r : List Char) : (p ++ r).drop p.length = r := by
  induction p with
  | nil => simp
  | cons c t ih => simp [ih]

/-- `lit` consumes exactly its literal prefix. -/
theorem lit_self (p r : List Char) : lit p (p ++ r) = some r := by
  have hs : startsW p (p ++ r) = true := (startsW_iff p (p ++ r)).mpr ⟨r, rfl⟩
  simp [lit, hs, drop_len_append]

/-- `lit` on a one-character literal. -/
theorem lit_cons (c : Char) (s : List Char) : lit [c] (c :: s) = some s :=
  lit_self [c] s

/-- `lit` on a two-character literal. -/
theorem lit_cons2 (c d : Char) (s : List Char) :
    lit [c, d] (c :: d :: s) = some s :=
  lit_self [c, d] s

/-- `lit` fails on a mismatched head character. -/
theorem lit_head_ne (c d : Char) (p s : List Char) (h : (c == d) = false) :
    lit (c :: p) (d :: s) = none := by
  simp [lit, startsW, h]

/-- `takeWhile` collects a token whose characters all satisfy `p` up to the
first failing character. -/
theorem takeWhile_tok (p : Char → Bool) (t : List Char) (c : Char)
    (r : List Char) (ht : ∀ x ∈ t, p x = true) (hc : p c = false) :
    (t ++ c :: r).takeWhile p = t := by
  induction t with
  | nil => simp [List.takeWhile_cons, hc]
  | cons a t2 ih =>
    have ha := ht a (List.mem_cons_self a t2)
    simp [List.takeWhile_cons, ha,
      ih fun x hx => ht x (List.mem_cons_of_mem a hx)]

/-- `dropWhile` drops a token whose characters all satisfy `p` and stops at
the first failing character. -/
theorem dropWhile_tok (p : Char → Bool) (t : List Char) (c : Char)
    (r : List Char) (ht : ∀ x ∈ t, p x = true) (hc : p c = false) :
    (t ++ c :: r).dropWhile p = c :: r := by
  induction t with
  | nil => simp [List.dropWhile_cons, hc]
  | cons a t2 ih =>
    have ha := ht a (List.mem_cons_self a t2)
    simp [List.dropWhile_cons, ha,
      ih fun x hx => ht x (List.mem_cons_of_mem a hx)]

/-- Leading blank is consumed by `\s*`. -/
theorem wsDrop_space (s : List Char) : wsDrop (' ' :: s) = wsDrop s := by
  simp [wsDrop, List.dropWhile_cons, show isWs ' ' = true from rfl]

/-- `\s*` stops at a non-whitespace head. -/
theorem wsDrop_stop (c : Char) (s : List Char) (h : isWs c = false) :
    wsDrop (c :: s) = c :: s := by
  simp [wsDrop, List.dropWhile_cons, h]

/-- `\s*` leaves an appended token with non-whitespace head unchanged. -/
theorem wsDrop_tok (c : Char) (t r : List Char) (h : isWs c = false) :
    wsDrop ((c :: t) ++ r) = (c :: t) ++ r := by
  rw [List.cons_append, wsDrop_stop _ _ h, ← List.cons_append]

/-- Package-name characters are not whitespace. -/
theorem nameChar_not_ws (c : Char) (h : nameChar c = true) : isWs c = false := by
  cases hw : isWs c with
  | false => rfl
  | true =>
    exfalso
    have hw' := hw
    simp only [isWs, Bool.or_eq_true, beq_iff_eq] at hw'
    rcases hw' with ((((rfl | rfl) | rfl) | rfl) | rfl) | rfl <;>
      exact absurd h (by decide)

/-- Version characters are not whitespace. -/
theorem verChar_not_ws (c : Char) (h : verChar c = true) : isWs c = false := by
  cases hw : isWs c with
  | false => rfl
  | true =>
    exfalso
    have hw' := hw
    simp only [isWs, Bool.or_eq_true, beq_iff_eq] at hw'
    rcases hw' with ((((rfl | rfl) | rfl) | rfl) | rfl) | rfl <;>
      exact absurd h (by decide)

/-- `kwTail` consumes a literal `Upgrade` keyword. -/
theorem kwTail_upgrade (r : List Char) : kwTail (upgradeKw ++ r) = some r := by
  simp [kwTail, lit_self]

/-- The `Upgrade` alternative fails on an `Install` keyword. -/
theorem lit_upgrade_install (r : List Char) :
    lit upgradeKw (installKw ++ r) = none := by
  have h : ('U' == 'I') = false := by decide
  simp [upgradeKw, installKw, lit, startsW, h]

/-- `kwTail` consumes a literal `Install` keyword. -/
theorem kwTail_install (r : List Char) : kwTail (installKw ++ r) = some r := by
  simp [kwTail, lit_upgrade_install, lit_self]

/-- The version part of an `Upgrade`-style match: `old -> new)`. -/
theorem matchVerPart_pair (name v1 v2 r : List Char)
    (hv1n : v1 ≠ []) (hv1 : ∀ c ∈ v1, verChar c = true)
    (hv2n : v2 ≠ []) (hv2 : ∀ c ∈ v2, verChar c = true) :
    matchVerPart name
        (v1 ++ ' ' :: '-' :: '>' :: ' ' :: (v2 ++ ')' :: r)) =
      some { name := name, fromVersion := some v1, toVersion := v2 } := by
  obtain ⟨c1, t1, rfl⟩ : ∃ c t, v1 = c :: t := by
    cases v1 with
    | nil => exact absurd rfl hv1n
    | cons c t => exact ⟨c, t, rfl⟩
  obtain ⟨c2, t2, rfl⟩ : ∃ c t, v2 = c :: t := by
    cases v2 with
    | nil => exact absurd rfl hv2n
    | cons c t => exact ⟨c, t, rfl⟩
  have htk1 := takeWhile_tok verChar (c1 :: t1) ' '
    ('-' :: '>' :: ' ' :: ((c2 :: t2) ++ ')' :: r)) hv1 (by decide)
  have hdr1 := dropWhile_tok verChar (c1 :: t1) ' '
    ('-' :: '>' :: ' ' :: ((c2 :: t2) ++ ')' :: r)) hv1 (by decide)
  have htk2 := takeWhile_tok verChar (c2 :: t2) ')' r hv2 (by decide)
  have hdr2 := dropWhile_tok verChar (c2 :: t2) ')' r hv2 (by decide)
  have hws2 := wsDrop_tok c2 t2 (')' :: r)
    (verChar_not_ws c2 (hv2 c2 (List.mem_cons_self c2 t2)))
  simp only [matchVerPart, htk1, hdr1, List.isEmpty_cons, Bool.false_eq_true,
    if_false, wsDrop_space, wsDrop_stop '-' _ (by decide), lit_cons2,
    hws2, htk2, hdr2, lit_cons]

/-- The version part of an arrow-free `Install`-style match: `ver)`. -/
theorem matchVerPart_single (name v r : List Char)
    (hvn : v ≠ []) (hv : ∀ c ∈ v, verChar c = true) :
    matchVerPart name (v ++ ')' :: r) =
      some { name := name, fromVersion := none, toVersion := v } := by
  obtain ⟨c1, t1, rfl⟩ : ∃ c t, v = c :: t := by
    cases v with
    | nil => exact absurd rfl hvn
    | cons c t => exact ⟨c, t, rfl⟩
  have htk := takeWhile_tok verChar (c1 :: t1) ')' r hv (by decide)
  have hdr := dropWhile_tok verChar (c1 :: t1) ')' r hv (by decide)
  simp only [matchVerPart, htk, hdr, List.isEmpty_cons, Bool.false_eq_true,
    if_false, wsDrop_stop ')' _ (by decide),
    lit_head_ne '-' ')' ['>'] r (by decide), lit_cons]

/-- A well-formed `Upgrade` line matches at its head, capturing the three
tokens. -/
theorem matchTransAt_upgrade (n v1 v2 : List Char)
    (hnn : n ≠ []) (hn : ∀ c ∈ n, nameChar c = true)
    (hv1n : v1 ≠ []) (hv1 : ∀ c ∈ v1, verChar c = true)
    (hv2n : v2 ≠ []) (hv2 : ∀ c ∈ v2, verChar c = true) :
    matchTransAt (upgradeLine n v1 v2) =
      some { name := n, fromVersion := some v1, toVersion := v2 } := by
  obtain ⟨nc, ns, rfl⟩ : ∃ c t, n = c :: t := by
    cases n with
    | nil => exact absurd rfl hnn
    | cons c t => exact ⟨c, t, rfl⟩
  have h0 : upgradeLine (nc :: ns) v1 v2 =
      upgradeKw ++ (':' :: ' ' :: ((nc :: ns) ++
        (' ' :: '(' :: (v1 ++ (' ' :: '-' :: '>' :: ' ' ::
          (v2 ++ [')'])))))) := by
    simp [upgradeLine, List.append_assoc]
  have htkn := takeWhile_tok nameChar (nc :: ns) ' '
    ('(' :: (v1 ++ (' ' :: '-' :: '>' :: ' ' :: (v2 ++ [')'])))) hn (by decide)
  have hdrn := dropWhile_tok nameChar (nc :: ns) ' '
    ('(' :: (v1 ++ (' ' :: '-' :: '>' :: ' ' :: (v2 ++ [')'])))) hn (by decide)
  have hwsn := wsDrop_tok nc ns
    (' ' :: '(' :: (v1 ++ (' ' :: '-' :: '>' :: ' ' :: (v2 ++ [')']))))
    (nameChar_not_ws nc (hn nc (List.mem_cons_self nc ns)))
  have hmvp := matchVerPart_pair (nc :: ns) v1 v2 [] hv1n hv1 hv2n hv2
  rw [h0]
  simp only [matchTransAt, kwTail_upgrade, lit_cons, wsDrop_space, hwsn,
    htkn, hdrn, List.isEmpty_cons, Bool.false_eq_true, if_false,
    wsDrop_stop '(' _ (by decide), hmvp]

/-- A well-formed arrow-free `Install` line matches at its head, capturing
name and target version with no source version. -/
theorem matchTransAt_install (n v : List Char)
    (hnn : n ≠ []) (hn : ∀ c ∈ n, nameChar c = true)
    (hvn : v ≠ []) (hv : ∀ c ∈ v, verChar c = true) :
    matchTransAt (installLine n v) =
      some { name := n, fromVersion := none, toVersion := v } := by
  obtain ⟨nc, ns, rfl⟩ : ∃ c t, n = c :: t := by
    cases n with
    | nil => exact absurd rfl hnn
    | cons c t => exact ⟨c, t, rfl⟩
  have h0 : installLine (nc :: ns) v =
      installKw ++ (':' :: ' ' :: ((nc :: ns) ++
        (' ' :: '(' :: (v ++ [')'])))) := by
    simp [installLine, List.append_assoc]
  have htkn := takeWhile_tok nameChar (nc :: ns) ' '
    ('(' :: (v ++ [')'])) hn (by decide)
  have hdrn := dropWhile_tok nameChar (nc :: ns) ' '
    ('(' :: (v ++ [')'])) hn (by decide)
  have hwsn := wsDrop_tok nc ns (' ' :: '(' :: (v ++ [')']))
    (nameChar_not_ws nc (hn nc (List.mem_cons_self nc ns)))
  have hmvs := matchVerPart_single (nc :: ns) v [] hvn hv
  rw [h0]
  simp only [matchTransAt, kwTail_install, lit_cons, wsDrop_space, hwsn,
    htkn, hdrn, List.isEmpty_cons, Bool.false_eq_true, if_false,
    wsDrop_stop '(' _ (by decide), hmvs]

/-- A successful match at the head of a nonempty line determines
`scanLine`. -/
theorem scanLine_of_match (s : List Char) (e : PackageTransition)
    (hne : s ≠ []) (h : matchTransAt s = some e) : scanLine s = some e := by
  cases s with
  | nil => exact absurd rfl hne
  | cons c t => simp [scanLine, h]

/-- A newline-free text is a single line. -/
theorem splitNl_no_nl (l : List Char) (h : '\n' ∉ l) : splitNl l = [l] := by
  induction l with
  | nil => rfl
  | cons c t ih =>
    have hc : ¬c = '\n' := fun hc => h (hc ▸ List.mem_cons_self c t)
    have ht : '\n' ∉ t := fun ht => h (List.mem_cons_of_mem c ht)
    simp [splitNl, hc, ih ht]

/-- Splitting after a newline-free first line peels it off. -/
theorem splitNl_append (l r : List Char) (h : '\n' ∉ l) :
    splitNl (l ++ '\n' :: r) = l :: splitNl r := by
  induction l with
  | nil => simp [splitNl]
  | cons c t ih =>
    have hc : ¬c = '\n' := fun hc => h (hc ▸ List.mem_cons_self c t)
    have ht : '\n' ∉ t := fun ht => h (List.mem_cons_of_mem c ht)
    simp [splitNl, hc, ih ht, List.cons_append]

/-- Scanning a newline-joined text scans each line in order. -/
theorem parseTransitions_joinNl (lines : List (List Char))
    (h : ∀ l ∈ lines, '\n' ∉ l) :
    parseTransitions (joinNl lines) = lines.filterMap scanLine := by
  induction lines with
  | nil => rfl
  | cons l ls ih =>
    cases ls with
    | nil =>
      simp [parseTransitions, joinNl,
        splitNl_no_nl l (h l (List.mem_cons_self l []))]
    | cons l2 ls2 =>
      have hl := h l (List.mem_cons_self l (l2 :: ls2))
      have hrest : ∀ x ∈ l2 :: ls2, '\n' ∉ x := fun x hx =>
        h x (List.mem_cons_of_mem l hx)
      have ihr := ih hrest
      simp only [parseTransitions, joinNl] at ihr ⊢
      rw [splitNl_append _ _ hl, List.filterMap_cons, List.filterMap_cons]
      cases scanLine l <;> simp [ihr]

/-- C1 — the spec's structured-extraction Parser yields one
`package_transitions` entry per matching line, in first-occurrence order:
an `Upgrade: pkg (1.0 -> 1.1)`-style line yields name/from/to, and an
arrow-free `Install: pkg (2.0)`-style line yields an absent `from`. -/
theorem spec_parser_transitions (lines : List (List Char))
    (hnl : ∀ l ∈ lines, '\n' ∉ l) (n v1 v2 : List Char)
    (hnn : n ≠ []) (hn : ∀ c ∈ n, nameChar c = true)
    (hv1n : v1 ≠ []) (hv1 : ∀ c ∈ v1, verChar c = true)
    (hv2n : v2 ≠ []) (hv2 : ∀ c ∈ v2, verChar c = true) :
    (parseSpec (joinNl lines)).package_transitions =
        lines.filterMap scanLine ∧
    scanLine (upgradeLine n v1 v2) =
        some { name := n, fromVersion := some v1, toVersion := v2 } ∧
    scanLine (installLine n v2) =
        some { name := n, fromVersion := none, toVersion := v2 } := by
  refine ⟨parseTransitions_joinNl lines hnl, ?_, ?_⟩
  · exact scanLine_of_match _ _ (by simp [upgradeLine, upgradeKw])
      (matchTransAt_upgrade n v1 v2 hnn hn hv1n hv1 hv2n hv2)
  · exact scanLine_of_match _ _ (by simp [installLine, installKw])
      (matchTransAt_install n v2 hnn hn hv2n hv2)

/-- C1 witness: a two-line log with one upgrade and one install. -/
theorem spec_parser_transitions_witness :
    (∀ l ∈ [upgradeLine "pkg".data "1.0".data "1.1".data,
        installLine "pkg2".data "2.0".data], '\n' ∉ l) ∧
    scanLine (upgradeLine "pkg".data "1.0".data "1.1".data) =
      some { name := "pkg".data, fromVersion := some "1.0".data,
             toVersion := "1.1".data } :=
  ⟨by decide,
    (spec_parser_transitions
        [upgradeLine "pkg".data "1.0".data "1.1".data,
          installLine "pkg2".data "2.0".data]
        (by decide) "pkg".data "1.0".data "1.1".data (by decide) (by decide)
        (by decide) (by decide) (by decide) (by decide)).2.1⟩

end Upsum
